import Mathlib

/-!
Verification of the snake-game core (`src/snakeGame/game.py`).

The embedding below translates the game logic of `SnakeGame` into Lean:

* Coordinates are rationals.  Python stores them as ints except for the
  initial head `Point(w/2, h/2)`, which uses true division; for the board
  sizes involved every value that arises is an exact binary fraction, so a
  rational coordinate is an exact model of the floats the program computes.
* `pygame.Rect(x, y, BLOCK, BLOCK)` truncates its float arguments toward
  zero when storing integer rect coordinates; `pyTrunc` models that
  conversion and `rectCollide` models `Rect.colliderect` for two
  `BLOCK`-sized rects.
* The `snake_rect` / `fruit_rect` lists mirror `snake` / `fruit`
  elementwise (every rect is built as `Rect(pt.x, pt.y, BLOCK, BLOCK)`),
  so the model keeps only the point lists and recomputes rects on demand.
* `random.randint` draws are passed in as an explicit list of candidate
  points; `createFruit`'s rejection loop becomes a scan for the first
  acceptable draw, returning `none` when the supply is exhausted (the
  Python loop would not terminate in that case).
* Rendering (`pygame.draw`, `display`, `clock`) has no effect on the game
  state and is omitted.
-/

namespace SnakeGame

/-- A coordinate pair, modelling the `Point` namedtuple. -/
structure Pt where
  x : ℚ
  y : ℚ
deriving DecidableEq

/-- `BLOCK = 20`, the grid cell edge length. -/
def BLOCK : ℚ := 20

/-- The `Direction` enum. -/
inductive Direction where
  | RIGHT
  | LEFT
  | UP
  | DOWN
deriving DecidableEq

/-- The unit displacement vector carried by each `Direction` value. -/
def Direction.vec : Direction → Pt
  | .RIGHT => ⟨1, 0⟩
  | .LEFT => ⟨-1, 0⟩
  | .UP => ⟨0, -1⟩
  | .DOWN => ⟨0, 1⟩

/-- Python / pygame conversion of a float coordinate to an int rect
coordinate: truncation toward zero. -/
def pyTrunc (q : ℚ) : ℤ := if 0 ≤ q then ⌊q⌋ else ⌈q⌉

/-- `pygame.Rect(p.x, p.y, BLOCK, BLOCK).colliderect(Rect(q.x, q.y, BLOCK,
BLOCK))`: strict overlap of the two truncated 20×20 rectangles. -/
def rectCollide (p q : Pt) : Bool :=
  decide (pyTrunc p.x < pyTrunc q.x + 20) && decide (pyTrunc p.x + 20 > pyTrunc q.x)
    && decide (pyTrunc p.y < pyTrunc q.y + 20) && decide (pyTrunc p.y + 20 > pyTrunc q.y)

/-- `rect.collidelist(rects of l) != -1`. -/
def collidesAny (r : Pt) (l : List Pt) : Bool :=
  l.any (fun q => rectCollide r q)

/-- The mutable fields of the `SnakeGame` object (screen, clock and the
derived rect lists omitted, see the header comment). -/
structure GameState where
  w : ℚ
  h : ℚ
  direction : Direction
  score : ℕ
  fruit : Option Pt
  snake : List Pt
deriving DecidableEq

/-- `self.snake[0]`; the snake list is never empty in the program, the
default is irrelevant. -/
def headD (l : List Pt) : Pt := l.headD ⟨0, 0⟩

/-- `SnakeGame.__init__(w, h)`: the game-state fields it sets (lines
60-71).  The display call of line 55 can abort construction before these
fields are assigned; that failure path is modelled by `construct` below,
and `initState` is the state produced whenever construction succeeds. -/
def initState (w h : ℚ) : GameState :=
  let head : Pt := ⟨w / 2, h / 2⟩
  { w := w
    h := h
    direction := .RIGHT
    score := 0
    fruit := none
    snake := [head, ⟨head.x - BLOCK, head.y⟩, ⟨head.x - 2 * BLOCK, head.y⟩] }

/-- Constructing a `SnakeGame(w, h)` object, including line 55:
`pygame.display.set_mode((w, h))` raises `pygame.error` with the message
"Cannot set negative sized display mode" whenever either dimension is
negative (the guard every released pygame applies), aborting `__init__`
before any game-state field is assigned; any other dimensions reach lines
60-71 and yield the `initState` fields.  The game code itself performs no
validation. -/
def construct (w h : ℚ) : Except String GameState :=
  if w < 0 ∨ h < 0 then Except.error "Cannot set negative sized display mode"
  else Except.ok (initState w h)

/-- `SnakeGame.createFruit`: rejection-sample the draws until one does not
collide with any snake rect; `none` models a never-terminating loop. -/
def createFruit (snake : List Pt) : List Pt → Option Pt
  | [] => none
  | d :: ds => if collidesAny d snake then createFruit snake ds else some d

/-- `SnakeGame.updateScore`: if a fruit exists and its rect collides with
the head rect, clear the fruit, bump the score and report `True`. -/
def updateScore (s : GameState) : Bool × GameState :=
  match s.fruit with
  | none => (false, s)
  | some f =>
    if rectCollide f (headD s.snake) then
      (true, { s with fruit := none, score := s.score + 1 })
    else (false, s)

/-- The head position `move` computes from the current direction
(`game.direction` aliases `self.direction`: the module-level `game` is the
one constructed instance). -/
def newHead (s : GameState) : Pt :=
  let hd := headD s.snake
  ⟨s.direction.vec.x * BLOCK + hd.x, s.direction.vec.y * BLOCK + hd.y⟩

/-- `SnakeGame.move`: insert the new head, then pop the tail unless
`updateScore` reported a fruit eaten.  The Boolean is `updateScore`'s
return value, exposed so the specification can talk about it. -/
def move (s : GameState) : Bool × GameState :=
  let s1 : GameState := { s with snake := newHead s :: s.snake }
  match updateScore s1 with
  | (true, s2) => (true, s2)
  | (false, s2) => (false, { s2 with snake := s2.snake.dropLast })

/-- `SnakeGame.isGameOver`: head rect collides with a body rect, or the
head coordinate leaves `[0, w-BLOCK] × [0, h-BLOCK]`. -/
def isGameOver (s : GameState) : Bool :=
  let hd := headD s.snake
  collidesAny hd s.snake.tail
    || !(decide (0 ≤ hd.x) && decide (hd.x ≤ s.w - BLOCK))
    || !(decide (0 ≤ hd.y) && decide (hd.y ≤ s.h - BLOCK))

/-- The out-of-bounds condition of the specification: the head lies outside
`[0, w-BLOCK] × [0, h-BLOCK]`. -/
def outOfBounds (w h : ℚ) (p : Pt) : Prop :=
  ¬ (0 ≤ p.x ∧ p.x ≤ w - BLOCK ∧ 0 ≤ p.y ∧ p.y ≤ h - BLOCK)

instance (w h : ℚ) (p : Pt) : Decidable (outOfBounds w h p) := by
  unfold outOfBounds
  infer_instance

/-- `SnakeGame.playStep`: move, report game over on collision, otherwise
replace a consumed fruit and report the game alive.  `none` models the
non-terminating fruit loop; drawing calls are omitted. -/
def playStep (s : GameState) (draws : List Pt) : Option (Bool × GameState) :=
  let s1 := (move s).2
  if isGameOver s1 then some (false, s1)
  else
    match s1.fruit with
    | some _ => some (true, s1)
    | none =>
      match createFruit s1.snake draws with
      | some f => some (true, { s1 with fruit := some f })
      | none => none

/-- The opposite of a direction (used to state the reversal rule). -/
def Direction.opposite : Direction → Direction
  | .RIGHT => .LEFT
  | .LEFT => .RIGHT
  | .UP => .DOWN
  | .DOWN => .UP

/-- The `KEYDOWN` handling of the `__main__` event loop, per arrow key:
adopt the requested direction unless the current direction is the one that
would be reversed. -/
def requestDirection (cur req : Direction) : Direction :=
  match req with
  | .UP => if cur ≠ .DOWN then .UP else cur
  | .DOWN => if cur ≠ .UP then .DOWN else cur
  | .LEFT => if cur ≠ .RIGHT then .LEFT else cur
  | .RIGHT => if cur ≠ .LEFT then .RIGHT else cur

/-- States reachable by the main loop: the freshly constructed game,
key presses between ticks, and ticks that report the game alive (the loop
stops calling `playStep` once it returns `False`). -/
inductive Reachable (w h : ℚ) : GameState → Prop where
  | init : Reachable w h (initState w h)
  | step : ∀ {s s1 : GameState} {draws : List Pt},
      Reachable w h s → playStep s draws = some (true, s1) → Reachable w h s1
  | steer : ∀ {s : GameState} (r : Direction),
      Reachable w h s → Reachable w h { s with direction := requestDirection s.direction r }

/-! ### Basic facts about the collision primitive -/

lemma pyTrunc_eq_floor {q : ℚ} (h : 0 ≤ q) : pyTrunc q = ⌊q⌋ := if_pos h

lemma rectCollide_self (p : Pt) : rectCollide p p = true := by
  simp only [rectCollide, Bool.and_eq_true, decide_eq_true_eq]
  omega

lemma floor_shift {a b : ℚ} (m : ℤ) (h : a - b = BLOCK * m) : ⌊a⌋ = ⌊b⌋ + 20 * m := by
  have ha : a = b + ((20 * m : ℤ) : ℚ) := by
    unfold BLOCK at h
    push_cast
    linarith
  rw [ha, Int.floor_add_int]

/-- Two `BLOCK`-sized rects whose corners have nonnegative coordinates and
differ by whole multiples of `BLOCK` collide exactly when they coincide. -/
lemma collide_iff_eq {p q : Pt} (hpx : 0 ≤ p.x) (hpy : 0 ≤ p.y)
    (hqx : 0 ≤ q.x) (hqy : 0 ≤ q.y) (m n : ℤ)
    (hx : p.x - q.x = BLOCK * m) (hy : p.y - q.y = BLOCK * n) :
    rectCollide p q = true ↔ p = q := by
  constructor
  · intro hc
    simp only [rectCollide, Bool.and_eq_true, decide_eq_true_eq,
      pyTrunc_eq_floor hpx, pyTrunc_eq_floor hpy, pyTrunc_eq_floor hqx,
      pyTrunc_eq_floor hqy] at hc
    have hfx : ⌊p.x⌋ = ⌊q.x⌋ + 20 * m := floor_shift m hx
    have hfy : ⌊p.y⌋ = ⌊q.y⌋ + 20 * n := floor_shift n hy
    have hm : m = 0 := by omega
    have hn : n = 0 := by omega
    subst hm hn
    have h1 : p.x = q.x := by
      have : p.x - q.x = 0 := by
        rw [hx]
        push_cast
        ring
      linarith
    have h2 : p.y = q.y := by
      have : p.y - q.y = 0 := by
        rw [hy]
        push_cast
        ring
      linarith
    cases p
    cases q
    simp_all
  · rintro rfl
    exact rectCollide_self p

/-! ### Invariants of reachable states -/

/-- Every point of the list differs from `cp` by whole multiples of
`BLOCK` in both coordinates. -/
def AlignedTo (cp : Pt) (l : List Pt) : Prop :=
  ∀ p ∈ l, ∃ m n : ℤ, p.x - cp.x = BLOCK * m ∧ p.y - cp.y = BLOCK * n

/-- Every point of the list has nonnegative coordinates. -/
def NonnegAll (l : List Pt) : Prop :=
  ∀ p ∈ l, 0 ≤ p.x ∧ 0 ≤ p.y

/-- The centre of the board, the initial head position. -/
def centerPt (w h : ℚ) : Pt := ⟨w / 2, h / 2⟩

/-- The inductive invariant of reachable states: board dimensions are the
construction arguments, the snake is nonempty and grid-aligned to the
initial head, its segments have nonnegative coordinates (except in the
fruitless start configuration, whose third segment may stick out to the
left on a small board), and its length is three plus the score. -/
def Inv (w h : ℚ) (s : GameState) : Prop :=
  s.w = w ∧ s.h = h ∧ s.snake ≠ [] ∧ AlignedTo (centerPt w h) s.snake ∧
    (s.fruit = none ∧ s.snake = (initState w h).snake ∨ NonnegAll s.snake) ∧
    s.snake.length = 3 + s.score

lemma vec_int (d : Direction) : ∃ a b : ℤ, d.vec.x = (a : ℚ) ∧ d.vec.y = (b : ℚ) := by
  cases d
  · exact ⟨1, 0, by norm_num [Direction.vec], by norm_num [Direction.vec]⟩
  · exact ⟨-1, 0, by norm_num [Direction.vec], by norm_num [Direction.vec]⟩
  · exact ⟨0, -1, by norm_num [Direction.vec], by norm_num [Direction.vec]⟩
  · exact ⟨0, 1, by norm_num [Direction.vec], by norm_num [Direction.vec]⟩

/-- Unfolding `move`: its Boolean is the fruit-eaten flag; eating keeps the
whole snake behind the new head, bumps the score and clears the fruit, and
otherwise the tail is dropped with score and fruit untouched. -/
lemma move_spec (s : GameState) (hne : s.snake ≠ []) :
    ((move s).1 = true ∧ (move s).2.snake = newHead s :: s.snake ∧
        (move s).2.score = s.score + 1 ∧ (move s).2.fruit = none ∧ s.fruit ≠ none ∨
      (move s).1 = false ∧ (move s).2.snake = newHead s :: s.snake.dropLast ∧
        (move s).2.score = s.score ∧ (move s).2.fruit = s.fruit) ∧
      (move s).2.w = s.w ∧ (move s).2.h = s.h ∧ (move s).2.direction = s.direction := by
  obtain ⟨a, l, hl⟩ : ∃ a l, s.snake = a :: l := by
    cases hs : s.snake with
    | nil => exact absurd hs hne
    | cons a l => exact ⟨a, l, rfl⟩
  cases hf : s.fruit with
  | none => simp [move, updateScore, hf, hl, List.dropLast]
  | some f =>
    by_cases hc : rectCollide f (newHead s) = true
    · simp [move, updateScore, hf, headD, hc]
    · simp [move, updateScore, hf, headD, hc, hl, List.dropLast]

lemma headD_mem {l : List Pt} (h : l ≠ []) : headD l ∈ l := by
  cases l with
  | nil => exact absurd rfl h
  | cons a t => simp [headD]

/-- A tick that did not end the game keeps the new head inside the board. -/
lemma not_over_bounds {s2 : GameState} (h : isGameOver s2 = false) :
    0 ≤ (headD s2.snake).x ∧ (headD s2.snake).x ≤ s2.w - BLOCK ∧
      0 ≤ (headD s2.snake).y ∧ (headD s2.snake).y ≤ s2.h - BLOCK := by
  simp only [isGameOver, Bool.or_eq_false_iff, Bool.not_eq_false',
    Bool.and_eq_true, decide_eq_true_eq] at h
  exact ⟨h.1.2.1, h.1.2.2, h.2.1, h.2.2⟩

/-- `isGameOver` decides exactly "body collision or out of bounds". -/
lemma isGameOver_true_iff (s : GameState) :
    isGameOver s = true ↔
      collidesAny (headD s.snake) s.snake.tail = true ∨
        outOfBounds s.w s.h (headD s.snake) := by
  simp only [isGameOver, outOfBounds, Bool.or_eq_true, Bool.not_eq_true',
    Bool.and_eq_false_iff, decide_eq_false_iff_not, not_le]
  constructor
  · rintro ((hc | hx) | hy)
    · exact Or.inl hc
    · refine Or.inr fun hcon => ?_
      obtain ⟨h1, h2, h3, h4⟩ := hcon
      rcases hx with hx | hx <;> linarith
    · refine Or.inr fun hcon => ?_
      obtain ⟨h1, h2, h3, h4⟩ := hcon
      rcases hy with hy | hy <;> linarith
  · rintro (hc | hob)
    · exact Or.inl (Or.inl hc)
    · by_cases h1 : 0 ≤ (headD s.snake).x
      · by_cases h2 : (headD s.snake).x ≤ s.w - BLOCK
        · by_cases h3 : 0 ≤ (headD s.snake).y
          · by_cases h4 : (headD s.snake).y ≤ s.h - BLOCK
            · exact absurd ⟨h1, h2, h3, h4⟩ hob
            · exact Or.inr (Or.inr (lt_of_not_le h4))
          · exact Or.inr (Or.inl (lt_of_not_le h3))
        · exact Or.inl (Or.inr (Or.inr (lt_of_not_le h2)))
      · exact Or.inl (Or.inr (Or.inl (lt_of_not_le h1)))

/-- From an in-bounds first step out of the start configuration, the two
retained initial segments have nonnegative coordinates. -/
lemma init_step_nonneg {w h : ℚ} (d : Direction)
    (hx0 : 0 ≤ d.vec.x * BLOCK + w / 2) (hx1 : d.vec.x * BLOCK + w / 2 ≤ w - BLOCK)
    (hy0 : 0 ≤ d.vec.y * BLOCK + h / 2) (hy1 : d.vec.y * BLOCK + h / 2 ≤ h - BLOCK) :
    0 ≤ w / 2 - BLOCK ∧ 0 ≤ w / 2 ∧ 0 ≤ h / 2 := by
  cases d <;>
    · simp only [Direction.vec] at hx0 hx1 hy0 hy1
      norm_num [BLOCK] at hx0 hx1 hy0 hy1 ⊢
      refine ⟨by linarith, by linarith, by linarith⟩

/-- Any result of `playStep` carries the post-move snake, and reports the
game over exactly when `isGameOver` held on the post-move state. -/
lemma playStep_shape {s s1 : GameState} {draws : List Pt} {b : Bool}
    (hp : playStep s draws = some (b, s1)) :
    s1.snake = (move s).2.snake ∧ s1.score = (move s).2.score ∧
      s1.w = (move s).2.w ∧ s1.h = (move s).2.h ∧
      s1.direction = (move s).2.direction ∧
      (b = false ↔ isGameOver (move s).2 = true) := by
  by_cases hover : isGameOver (move s).2 = true
  · simp only [playStep, hover, if_true, Option.some_inj, Prod.mk.injEq] at hp
    obtain ⟨hb, hs⟩ := hp
    subst hb hs
    simp [hover]
  · simp only [playStep, hover, if_false, Bool.false_eq_true] at hp
    cases hf : (move s).2.fruit with
    | some f =>
      rw [hf] at hp
      simp only [Option.some_inj, Prod.mk.injEq] at hp
      obtain ⟨hb, hs⟩ := hp
      subst hb hs
      simp [hover]
    | none =>
      rw [hf] at hp
      cases hc : createFruit (move s).2.snake draws with
      | some f =>
        rw [hc] at hp
        simp only [Option.some_inj, Prod.mk.injEq] at hp
        obtain ⟨hb, hs⟩ := hp
        subst hb hs
        simp [hover]
      | none => rw [hc] at hp; exact absurd hp (by simp)

/-- A tick that reports the game alive ends with a fruit on the board. -/
lemma playStep_alive_fruit {s s1 : GameState} {draws : List Pt}
    (hp : playStep s draws = some (true, s1)) : s1.fruit.isSome = true := by
  by_cases hover : isGameOver (move s).2 = true
  · simp [playStep, hover] at hp
  · simp only [playStep, hover, if_false, Bool.false_eq_true] at hp
    cases hf : (move s).2.fruit with
    | some f =>
      rw [hf] at hp
      simp only [Option.some_inj, Prod.mk.injEq] at hp
      rw [← hp.2, hf]
      rfl
    | none =>
      rw [hf] at hp
      cases hc : createFruit (move s).2.snake draws with
      | some f =>
        rw [hc] at hp
        simp only [Option.some_inj, Prod.mk.injEq] at hp
        rw [← hp.2]
        rfl
      | none => rw [hc] at hp; exact absurd hp (by simp)

/-- Moving keeps the snake aligned to the initial head. -/
lemma post_move_aligned {w h : ℚ} {s : GameState} (hne : s.snake ≠ [])
    (hal : AlignedTo (centerPt w h) s.snake) :
    AlignedTo (centerPt w h) (move s).2.snake := by
  obtain ⟨hcase, -, -, -⟩ := move_spec s hne
  have hnh : ∃ m n : ℤ, (newHead s).x - (centerPt w h).x = BLOCK * m ∧
      (newHead s).y - (centerPt w h).y = BLOCK * n := by
    obtain ⟨m, n, hmx, hmy⟩ := hal (headD s.snake) (headD_mem hne)
    obtain ⟨a, b, hax, hby⟩ := vec_int s.direction
    refine ⟨a + m, b + n, ?_, ?_⟩
    · have hx : (newHead s).x = s.direction.vec.x * BLOCK + (headD s.snake).x := rfl
      rw [hx, hax]
      simp only [BLOCK] at hmx ⊢
      push_cast
      linarith
    · have hy : (newHead s).y = s.direction.vec.y * BLOCK + (headD s.snake).y := rfl
      rw [hy, hby]
      simp only [BLOCK] at hmy ⊢
      push_cast
      linarith
  intro p hp
  rcases hcase with ⟨-, hsnake, -, -, -⟩ | ⟨-, hsnake, -, -⟩ <;> rw [hsnake] at hp <;>
      rcases List.mem_cons.mp hp with rfl | hp
  · exact hnh
  · exact hal p hp
  · exact hnh
  · exact hal p (List.mem_of_mem_dropLast hp)

/-- Moving with the new head inside the board keeps every segment at
nonnegative coordinates. -/
lemma post_move_nonneg {w h : ℚ} {s : GameState} (hne : s.snake ≠ [])
    (hdisj : s.fruit = none ∧ s.snake = (initState w h).snake ∨ NonnegAll s.snake)
    (hb1 : 0 ≤ (newHead s).x) (hb2 : (newHead s).x ≤ w - BLOCK)
    (hb3 : 0 ≤ (newHead s).y) (hb4 : (newHead s).y ≤ h - BLOCK) :
    NonnegAll (move s).2.snake := by
  obtain ⟨hcase, -, -, -⟩ := move_spec s hne
  intro p hp
  rcases hcase with ⟨-, hsnake, -, -, hfr⟩ | ⟨-, hsnake, -, -⟩ <;> rw [hsnake] at hp <;>
      rcases List.mem_cons.mp hp with rfl | hp
  · exact ⟨hb1, hb3⟩
  · rcases hdisj with ⟨hf0, -⟩ | hnn
    · exact absurd hf0 hfr
    · exact hnn p hp
  · exact ⟨hb1, hb3⟩
  · rcases hdisj with ⟨-, hsn⟩ | hnn
    · have hhd : headD s.snake = ⟨w / 2, h / 2⟩ := by
        rw [hsn]
        simp [initState, headD]
      have hnh : newHead s =
          ⟨s.direction.vec.x * BLOCK + w / 2, s.direction.vec.y * BLOCK + h / 2⟩ := by
        rw [newHead, hhd]
      rw [hnh] at hb1 hb2 hb3 hb4
      obtain ⟨k1, k2, k3⟩ := init_step_nonneg s.direction hb1 hb2 hb3 hb4
      rw [hsn] at hp
      have hp2 : p ∈ [(⟨w / 2, h / 2⟩ : Pt), ⟨w / 2 - BLOCK, h / 2⟩] := by
        revert hp
        simp [initState, List.dropLast]
      rcases List.mem_cons.mp hp2 with rfl | hp2
      · exact ⟨k2, k3⟩
      · rcases List.mem_cons.mp hp2 with rfl | hp2
        · exact ⟨k1, k3⟩
        · exact absurd hp2 (List.not_mem_nil p)
    · exact hnn p (List.mem_of_mem_dropLast hp)

lemma inv_init (w h : ℚ) : Inv w h (initState w h) := by
  refine ⟨rfl, rfl, by simp [initState], ?_, Or.inl ⟨rfl, rfl⟩, by simp [initState]⟩
  intro p hp
  simp only [initState, List.mem_cons, List.not_mem_nil, or_false] at hp
  rcases hp with rfl | rfl | rfl
  · exact ⟨0, 0, by norm_num [centerPt, BLOCK], by norm_num [centerPt, BLOCK]⟩
  · exact ⟨-1, 0, by norm_num [centerPt, BLOCK], by norm_num [centerPt, BLOCK]⟩
  · exact ⟨-2, 0, by norm_num [centerPt, BLOCK], by norm_num [centerPt, BLOCK]⟩

lemma inv_steer {w h : ℚ} {s : GameState} (hInv : Inv w h s) (r : Direction) :
    Inv w h { s with direction := requestDirection s.direction r } := hInv

lemma inv_step {w h : ℚ} {s s1 : GameState} {draws : List Pt}
    (hInv : Inv w h s) (hp : playStep s draws = some (true, s1)) : Inv w h s1 := by
  obtain ⟨hsn1, hsc1, hw1, hh1, hdir1, hbiff⟩ := playStep_shape hp
  have hover : isGameOver (move s).2 = false := by
    cases hio : isGameOver (move s).2 with
    | false => rfl
    | true => exact absurd (hbiff.mpr hio) (by simp)
  obtain ⟨hw, hh, hne, hal, hdisj, hlen⟩ := hInv
  obtain ⟨hcase, hmw, hmh, hmd⟩ := move_spec s hne
  have hhd2 : headD (move s).2.snake = newHead s := by
    rcases hcase with ⟨-, h2, -, -, -⟩ | ⟨-, h2, -, -⟩ <;> rw [h2] <;> rfl
  have hbd := not_over_bounds hover
  rw [hhd2, hmw, hmh, hw, hh] at hbd
  refine ⟨by rw [hw1, hmw, hw], by rw [hh1, hmh, hh], ?_, ?_, ?_, ?_⟩
  · rw [hsn1]
    rcases hcase with ⟨-, h2, -, -, -⟩ | ⟨-, h2, -, -⟩ <;> rw [h2] <;> simp
  · rw [hsn1]
    exact post_move_aligned hne hal
  · refine Or.inr ?_
    rw [hsn1]
    exact post_move_nonneg hne hdisj hbd.1 hbd.2.1 hbd.2.2.1 hbd.2.2.2
  · rcases hcase with ⟨-, h2, hsc, -, -⟩ | ⟨-, h2, hsc, -⟩
    · rw [hsn1, h2, hsc1, hsc]
      simp only [List.length_cons, hlen]
      omega
    · rw [hsn1, h2, hsc1, hsc]
      have h3 : s.snake.dropLast.length = s.snake.length - 1 := s.snake.length_dropLast
      simp only [List.length_cons, h3, hlen]
      omega

/-- Every reachable state satisfies the inductive invariant. -/
lemma reachable_inv {w h : ℚ} {s : GameState} (hr : Reachable w h s) : Inv w h s := by
  induction hr with
  | init => exact inv_init w h
  | step hr hp ih => exact inv_step ih hp
  | steer r hr ih => exact inv_steer ih r

/-! ### The claims -/

/-- C1: for every game state reached by the main loop, a tick
(`playStep`) reports the game over (`alive = false`) if and only if, on
the post-move snake (head inserted, tail conditionally removed), the new
head occupies the same cell as some other segment or lies outside
`[0, w-BLOCK] × [0, h-BLOCK]`. -/
theorem C1_tick_reports_over_iff {w h : ℚ} {s : GameState} (hr : Reachable w h s)
    {draws : List Pt} {b : Bool} {s1 : GameState}
    (hp : playStep s draws = some (b, s1)) :
    b = false ↔
      headD s1.snake ∈ s1.snake.tail ∨ outOfBounds s1.w s1.h (headD s1.snake) := by
  obtain ⟨hw, hh, hne, hal, hdisj, hlen⟩ := reachable_inv hr
  obtain ⟨hsn1, hsc1, hw1, hh1, hdir1, hbiff⟩ := playStep_shape hp
  obtain ⟨hcase, hmw, hmh, hmd⟩ := move_spec s hne
  obtain ⟨rest, hrest, hrsub⟩ :
      ∃ rest, (move s).2.snake = newHead s :: rest ∧ ∀ p ∈ rest, p ∈ s.snake := by
    rcases hcase with ⟨-, h2, -, -, -⟩ | ⟨-, h2, -, -⟩
    · exact ⟨s.snake, h2, fun p hp2 => hp2⟩
    · exact ⟨s.snake.dropLast, h2, fun p hp2 => List.mem_of_mem_dropLast hp2⟩
  rw [hbiff, isGameOver_true_iff, hsn1, hw1, hh1, hmw, hmh, hw, hh, hrest]
  have hhd : headD (newHead s :: rest) = newHead s := rfl
  have htl : (newHead s :: rest).tail = rest := rfl
  rw [hhd, htl]
  by_cases hob : outOfBounds w h (newHead s)
  · simp [hob]
  · have hbnd : 0 ≤ (newHead s).x ∧ (newHead s).x ≤ w - BLOCK ∧
        0 ≤ (newHead s).y ∧ (newHead s).y ≤ h - BLOCK := of_not_not hob
    have hnn : NonnegAll (move s).2.snake :=
      post_move_nonneg hne hdisj hbnd.1 hbnd.2.1 hbnd.2.2.1 hbnd.2.2.2
    have halm : AlignedTo (centerPt w h) (move s).2.snake := post_move_aligned hne hal
    simp only [hob, or_false]
    rw [collidesAny, List.any_eq_true]
    constructor
    · rintro ⟨q, hq, hcq⟩
      have h1 := hnn (newHead s) (by rw [hrest]; exact List.mem_cons_self _ _)
      have h2 := hnn q (by rw [hrest]; exact List.mem_cons_of_mem _ hq)
      obtain ⟨m1, n1, hm1, hn1⟩ :=
        halm (newHead s) (by rw [hrest]; exact List.mem_cons_self _ _)
      obtain ⟨m2, n2, hm2, hn2⟩ := halm q (by rw [hrest]; exact List.mem_cons_of_mem _ hq)
      have heq : rectCollide (newHead s) q = true ↔ newHead s = q :=
        collide_iff_eq h1.1 h1.2 h2.1 h2.2 (m1 - m2) (n1 - n2)
          (by simp only [BLOCK] at hm1 hm2 ⊢; push_cast; linarith)
          (by simp only [BLOCK] at hn1 hn2 ⊢; push_cast; linarith)
      rw [heq.mp hcq]
      exact hq
    · intro hmem
      exact ⟨newHead s, hmem, rectCollide_self _⟩

/-- The state after one right-moving tick of the default game, with the
fruit placed from the single draw `(100, 100)`. -/
def c1s1 : GameState :=
  ⟨1000, 600, .RIGHT, 0, some ⟨100, 100⟩, [⟨520, 300⟩, ⟨500, 300⟩, ⟨480, 300⟩]⟩

theorem C1_witness :
    (true = false ↔
      headD c1s1.snake ∈ c1s1.snake.tail ∨
        outOfBounds c1s1.w c1s1.h (headD c1s1.snake)) :=
  @C1_tick_reports_over_iff 1000 600 (initState 1000 600) (@Reachable.init 1000 600)
    [⟨100, 100⟩] true c1s1
    (by norm_num [playStep, move, initState, newHead, headD, updateScore, isGameOver,
      collidesAny, createFruit, rectCollide, pyTrunc, BLOCK, Direction.vec, c1s1])

lemma move_direction (s : GameState) : (move s).2.direction = s.direction := by
  cases hf : s.fruit with
  | none => simp [move, updateScore, hf]
  | some f =>
    by_cases hc : rectCollide f (headD (newHead s :: s.snake)) = true <;>
      simp [move, updateScore, hf, hc]

/-- The state after a right-moving tick of the default game that placed the
fruit at `(545, 310)` — a cell overlapping, but not equal to, the cell the
head reaches on the following tick. -/
def c2s1 : GameState :=
  ⟨1000, 600, .RIGHT, 0, some ⟨545, 310⟩, [⟨520, 300⟩, ⟨500, 300⟩, ⟨480, 300⟩]⟩

/-- The state after the following tick: the fruit was consumed (score 1,
snake grown) although the head `(540, 300)` never equalled `(545, 310)`. -/
def c2s2 : GameState :=
  ⟨1000, 600, .RIGHT, 1, some ⟨100, 100⟩,
    [⟨540, 300⟩, ⟨520, 300⟩, ⟨500, 300⟩, ⟨480, 300⟩]⟩

/-- C2 counterexample: on the second tick of this run of the default game
the head's position differs from the fruit's position, yet `updateScore`
consumes the fruit (rect overlap, not cell equality, is what the code
tests), so "eaten exactly when the positions are equal" is false. -/
theorem C2_counterexample :
    playStep (initState 1000 600) [⟨545, 310⟩] = some (true, c2s1) ∧
      playStep c2s1 [⟨100, 100⟩] = some (true, c2s2) ∧
      (move c2s1).1 = true ∧
      c2s2.score = c2s1.score + 1 ∧
      c2s1.fruit = some ⟨545, 310⟩ ∧
      newHead c2s1 ≠ ⟨545, 310⟩ := by
  norm_num [playStep, move, initState, newHead, headD, updateScore, isGameOver,
    collidesAny, createFruit, rectCollide, pyTrunc, BLOCK, Direction.vec, c2s1, c2s2]

/-- C2 amended: a tick eats the fruit exactly when a fruit exists and its
`BLOCK`-sized rect overlaps the new head's rect (pygame `colliderect` on
truncated coordinates); equality of the two positions is sufficient but
not necessary. -/
theorem C2_fruit_eaten_iff_overlap (s : GameState) :
    ((move s).1 = true ↔ ∃ f, s.fruit = some f ∧ rectCollide f (newHead s) = true) ∧
      (∀ f, s.fruit = some f → newHead s = f → (move s).1 = true) := by
  have hmain : (move s).1 = true ↔ ∃ f, s.fruit = some f ∧ rectCollide f (newHead s) = true := by
    cases hf : s.fruit with
    | none => simp [move, updateScore, hf]
    | some f =>
      by_cases hc : rectCollide f (headD (newHead s :: s.snake)) = true <;>
        · simp only [move, updateScore, hf, hc, headD] at *
          simp_all [headD]
  refine ⟨hmain, fun f hf hnh => hmain.mpr ⟨f, hf, ?_⟩⟩
  rw [← hnh]
  exact rectCollide_self _

theorem C2_fruit_eaten_iff_overlap_witness : (move c2s1).1 = true :=
  (C2_fruit_eaten_iff_overlap c2s1).1.mpr
    ⟨⟨545, 310⟩, rfl,
      by norm_num [rectCollide, pyTrunc, newHead, headD, c2s1, BLOCK, Direction.vec]⟩

/-- C3: a tick whose `updateScore` reports the fruit eaten grows the snake
by exactly one segment, raises the score by exactly one and clears the
fruit inside that same tick (in `move`, before `playStep` places the
replacement); a tick that eats nothing leaves length and score unchanged. -/
theorem C3_eating_grows_by_one (s : GameState) :
    ((move s).1 = true →
        (move s).2.snake.length = s.snake.length + 1 ∧
          (move s).2.score = s.score + 1 ∧ (move s).2.fruit = none) ∧
      ((move s).1 = false →
        (move s).2.snake.length = s.snake.length ∧ (move s).2.score = s.score) := by
  cases hf : s.fruit with
  | none =>
    refine ⟨?_, ?_⟩ <;> intro hb <;>
      simp_all [move, updateScore, hf, List.length_dropLast]
  | some f =>
    by_cases hc : rectCollide f (headD (newHead s :: s.snake)) = true <;>
      · refine ⟨?_, ?_⟩ <;> intro hb <;>
          simp_all [move, updateScore, hf, headD, List.length_dropLast]

/-- A state of the default game whose fruit sits exactly on the cell the
next head move reaches. -/
def c3eat : GameState :=
  ⟨1000, 600, .RIGHT, 0, some ⟨520, 300⟩, [⟨500, 300⟩, ⟨480, 300⟩, ⟨460, 300⟩]⟩

/-- A state of the default game whose fruit is far from the snake. -/
def c3noeat : GameState :=
  ⟨1000, 600, .RIGHT, 0, some ⟨100, 100⟩, [⟨500, 300⟩, ⟨480, 300⟩, ⟨460, 300⟩]⟩

theorem C3_eating_grows_by_one_witness :
    ((move c3eat).2.snake.length = c3eat.snake.length + 1 ∧
        (move c3eat).2.score = c3eat.score + 1 ∧ (move c3eat).2.fruit = none) ∧
      ((move c3noeat).2.snake.length = c3noeat.snake.length ∧
        (move c3noeat).2.score = c3noeat.score) :=
  ⟨(C3_eating_grows_by_one c3eat).1
      (by norm_num [move, updateScore, newHead, headD, rectCollide, pyTrunc, c3eat,
        BLOCK, Direction.vec]),
    (C3_eating_grows_by_one c3noeat).2
      (by norm_num [move, updateScore, newHead, headD, rectCollide, pyTrunc, c3noeat,
        BLOCK, Direction.vec])⟩

/-- C4: a direction request that is the exact opposite of the current
direction leaves the direction unchanged (silent no-op), any other request
is adopted; and a tick never changes the direction, so an ignored reversal
also has no effect on the next tick. -/
theorem C4_reversal_is_noop :
    (∀ d r : Direction,
        (r = d.opposite → requestDirection d r = d) ∧
          (r ≠ d.opposite → requestDirection d r = r)) ∧
      ∀ (s : GameState) (draws : List Pt) (b : Bool) (s1 : GameState),
        playStep s draws = some (b, s1) → s1.direction = s.direction := by
  refine ⟨fun d r => ?_, fun s draws b s1 hp => ?_⟩
  · cases d <;> cases r <;> exact ⟨by decide, by decide⟩
  · rw [(playStep_shape hp).2.2.2.2.1, move_direction]

/-- The state after one right-moving tick of the default game, fruit from
the draw `(100, 100)` (used to witness C4's next-tick clause). -/
def c4s1 : GameState :=
  ⟨1000, 600, .RIGHT, 0, some ⟨100, 100⟩, [⟨520, 300⟩, ⟨500, 300⟩, ⟨480, 300⟩]⟩

theorem C4_reversal_is_noop_witness :
    requestDirection .RIGHT .LEFT = .RIGHT ∧
      requestDirection .RIGHT .UP = .UP ∧
      c4s1.direction = (initState 1000 600).direction :=
  ⟨(C4_reversal_is_noop.1 .RIGHT .LEFT).1 rfl,
    (C4_reversal_is_noop.1 .RIGHT .UP).2 (by decide),
    C4_reversal_is_noop.2 (initState 1000 600) [⟨100, 100⟩] true c4s1
      (by norm_num [playStep, move, initState, newHead, headD, updateScore, isGameOver,
        collidesAny, createFruit, rectCollide, pyTrunc, BLOCK, Direction.vec, c4s1])⟩

/-- C5: whenever the rejection-sampling fruit placement returns, the placed
fruit's rect overlaps no snake segment's rect; in particular the fruit's
cell equals no segment's cell. -/
theorem C5_fruit_never_on_snake {snake draws : List Pt} {f : Pt}
    (hc : createFruit snake draws = some f) :
    (∀ p ∈ snake, rectCollide f p = false) ∧ f ∉ snake := by
  induction draws with
  | nil => simp [createFruit] at hc
  | cons d ds ih =>
    by_cases h : collidesAny d snake = true
    · rw [createFruit, if_pos h] at hc
      exact ih hc
    · rw [createFruit, if_neg h] at hc
      obtain rfl : d = f := Option.some.inj hc
      have hall : ∀ p ∈ snake, rectCollide d p = false := by
        intro p hp
        rcases Bool.eq_false_or_eq_true (rectCollide d p) with h1 | h0
        · exact absurd (by rw [collidesAny, List.any_eq_true]; exact ⟨p, hp, h1⟩) h
        · exact h0
      refine ⟨hall, fun hmem => ?_⟩
      exact absurd (rectCollide_self d) (by simp [hall d hmem])

theorem C5_fruit_never_on_snake_witness :
    rectCollide ⟨100, 100⟩ ⟨0, 0⟩ = false ∧ (⟨100, 100⟩ : Pt) ∉ [(⟨0, 0⟩ : Pt)] :=
  have h := @C5_fruit_never_on_snake [⟨0, 0⟩] [⟨100, 100⟩] ⟨100, 100⟩
    (by norm_num [createFruit, collidesAny, rectCollide, pyTrunc])
  ⟨h.1 ⟨0, 0⟩ (List.mem_singleton_self _), h.2⟩

/-- The state after the first tick of the default game when the random
draw is `(7, 7)`: the fruit lands on a cell that is not a multiple of
`BLOCK`. -/
def c6s1 : GameState :=
  ⟨1000, 600, .RIGHT, 0, some ⟨7, 7⟩, [⟨520, 300⟩, ⟨500, 300⟩, ⟨480, 300⟩]⟩

/-- C6 refutation: `createFruit` samples `random.randint(0, w - BLOCK)`
directly, so a reachable state carries a fruit at `(7, 7)`, which is not
grid-aligned — against both the claim and the module's own docstring
("generate each fruit ... on the multiple part of Block"). -/
theorem C6_fruit_not_grid_aligned :
    playStep (initState 1000 600) [⟨7, 7⟩] = some (true, c6s1) ∧
      c6s1.fruit = some ⟨7, 7⟩ ∧ BLOCK = (20 : ℚ) ∧ (7 : ℤ) % 20 = 7 := by
  refine ⟨by norm_num [playStep, move, initState, newHead, headD, updateScore, isGameOver,
    collidesAny, createFruit, rectCollide, pyTrunc, BLOCK, Direction.vec, c6s1], rfl,
    rfl, by decide⟩

/-- C7 counterexample: a board of 1010 by 600 — dimensions `BLOCK = 20`
does not divide evenly (`1010 % 20 = 10`) — is accepted by construction
with no error of any kind and yields the ordinary usable initial state,
so "constructing fails with a descriptive error" is false for the
non-divisibility half of the claim. -/
theorem C7_counterexample :
    construct 1010 600 = Except.ok (initState 1010 600) ∧
      (1010 : ℤ) % 20 = 10 ∧ BLOCK = (20 : ℚ) ∧
      (initState 1010 600).snake.length = 3 ∧ (initState 1010 600).score = 0 ∧
      (initState 1010 600).fruit = none ∧ (initState 1010 600).direction = .RIGHT := by
  refine ⟨?_, by decide, rfl, by simp [initState], rfl, rfl, rfl⟩
  rw [construct, if_neg (by norm_num)]

/-- C7 amended: the game code validates nothing; construction fails only
through `pygame.display.set_mode`, which raises its descriptive error
exactly for a negative width or height, before any game state exists.
Every other configuration — zero dimensions or dimensions `BLOCK` does
not divide evenly included — constructs the ordinary usable initial
state. -/
theorem C7_construction_fails_only_when_negative (w h : ℚ) :
    (w < 0 ∨ h < 0 → construct w h = Except.error "Cannot set negative sized display mode") ∧
      (0 ≤ w → 0 ≤ h →
        construct w h = Except.ok (initState w h) ∧
          (initState w h).snake.length = 3 ∧ (initState w h).score = 0 ∧
          (initState w h).fruit = none ∧ (initState w h).direction = .RIGHT) := by
  refine ⟨fun hneg => ?_, fun hw hh => ?_⟩
  · rw [construct, if_pos hneg]
  · rw [construct, if_neg (by push_neg; exact ⟨hw, hh⟩)]
    exact ⟨rfl, by simp [initState], rfl, rfl, rfl⟩

theorem C7_construction_fails_only_when_negative_witness :
    construct (-6) 0 = Except.error "Cannot set negative sized display mode" ∧
      construct 1010 600 = Except.ok (initState 1010 600) :=
  ⟨(C7_construction_fails_only_when_negative (-6) 0).1 (Or.inl (by norm_num)),
    ((C7_construction_fails_only_when_negative 1010 600).2 (by norm_num) (by norm_num)).1⟩

/-- Modelled from the spec: the repository has no `reset()` method (the
player must restart the program), so the operation is taken from §4.1 of
the spec: "reinitializes snake (3-segment horizontal line centered on the
board), clears fruit, score=0, direction=RIGHT". -/
def reset (s : GameState) : GameState :=
  { w := s.w
    h := s.h
    direction := .RIGHT
    score := 0
    fruit := none
    snake := [⟨s.w / 2, s.h / 2⟩, ⟨s.w / 2 - BLOCK, s.h / 2⟩,
      ⟨s.w / 2 - 2 * BLOCK, s.h / 2⟩] }

/-- C8: from any state — in particular one reached after a game over —
`reset` yields exactly the state a fresh construction with the same board
dimensions yields: centred 3-segment horizontal snake, no fruit, score 0,
direction RIGHT. -/
theorem C8_reset_equals_fresh_init (s : GameState) :
    reset s = initState s.w s.h ∧ (reset s).score = 0 ∧ (reset s).fruit = none ∧
      (reset s).direction = .RIGHT ∧ (reset s).snake.length = 3 :=
  ⟨rfl, rfl, rfl, rfl, rfl⟩

/-- C9: in every reachable state the snake's length is three plus the
score — each segment beyond the initial three records one eaten fruit. -/
theorem C9_length_is_three_plus_score {w h : ℚ} {s : GameState}
    (hr : Reachable w h s) : s.snake.length = 3 + s.score :=
  (reachable_inv hr).2.2.2.2.2

theorem C9_length_is_three_plus_score_witness :
    (initState 1000 600).snake.length = 3 + (initState 1000 600).score :=
  C9_length_is_three_plus_score (@Reachable.init 1000 600)

/-- C10: every tick that completes and reports the game alive ends with a
fruit on the board — a fruit consumed during the tick is replaced before
the tick returns, so `fruit` is `None` only transiently inside a tick or
after a game over. -/
theorem C10_alive_tick_has_fruit {s s1 : GameState} {draws : List Pt}
    (hp : playStep s draws = some (true, s1)) : s1.fruit.isSome = true :=
  playStep_alive_fruit hp

/-- The state after one right-moving tick of the default game, fruit from
the draw `(100, 100)` (used to witness C10). -/
def c10s1 : GameState :=
  ⟨1000, 600, .RIGHT, 0, some ⟨100, 100⟩, [⟨520, 300⟩, ⟨500, 300⟩, ⟨480, 300⟩]⟩

theorem C10_alive_tick_has_fruit_witness : c10s1.fruit.isSome = true :=
  @C10_alive_tick_has_fruit (initState 1000 600) c10s1 [⟨100, 100⟩]
    (by norm_num [playStep, move, initState, newHead, headD, updateScore, isGameOver,
      collidesAny, createFruit, rectCollide, pyTrunc, BLOCK, Direction.vec, c10s1])

end SnakeGame
